import Mathlib

/-!
Verification of `src/streamlit_app/main.py` (a Streamlit weather dashboard).

Modelling conventions for the shallow embedding:

* Calendar days are integers (day ordinals).  The Python code formats
  `datetime.now() - timedelta(days=i)` with `strftime("%Y-%m-%d")` and compares
  those strings for exact equality; since that format is an injective encoding
  of the calendar day, we represent a date by its day ordinal `: Int` and the
  string comparison by integer equality.  `today : Int` stands for the day of
  `datetime.now()` at script run time (the claims assume a single fixed `now`
  for the whole run).
* `random.uniform(a, b)` draws are modelled by an explicit stream
  `rand : Nat → ℚ` of unit-interval samples, consumed in program order:
  the k-th call to `random.uniform(a, b)` returns `a + (b - a) * rand k`.
  The uniform-range guarantee of the Python library is the hypothesis
  `∀ k, 0 ≤ rand k ∧ rand k ≤ 1`.
* Python numbers are rationals.  Python 3 `round` is round-half-to-even and
  `round(x)` (no digits) returns an `int`; both are modelled exactly below.
* Streamlit widget output (markdown, charts) is ignored; the user-visible
  warning/error messages of `load_weather_data` are modelled as fields of a
  `RenderOutput` structure, and a Python exception inside the `try` block is
  modelled as an `Except.error`.
-/

/-- Python 3 `round(x)`: round half to even, returning an integer. -/
def pyRound (x : ℚ) : ℤ :=
  if x - ⌊x⌋ < 1/2 then ⌊x⌋
  else if 1/2 < x - ⌊x⌋ then ⌊x⌋ + 1
  else if 2 ∣ ⌊x⌋ then ⌊x⌋ else ⌊x⌋ + 1

/-- Python 3 `round(x, n)`: round half to even at `n` decimal digits. -/
def pyRoundTo (n : ℕ) (x : ℚ) : ℚ :=
  (pyRound (x * 10 ^ n) : ℚ) / 10 ^ n

/-- One synthetic weather observation, as appended by `generate_sample_data`. -/
structure WeatherRecord where
  date : ℤ
  region : String
  temperature : ℚ
  humidity : ℚ
  wind_speed : ℚ
  air_quality_index : ℚ
  precipitation : ℚ
deriving DecidableEq, Repr

/-- The fixed region list of `generate_sample_data`. -/
def regions : List String :=
  ["New York", "London", "Tokyo", "Mumbai", "Sydney", "Paris", "Dubai", "Singapore"]

/-- The value of the k-th `random.uniform(a, b)` call, given the sample stream. -/
def uniform (rand : ℕ → ℚ) (k : ℕ) (a b : ℚ) : ℚ := a + (b - a) * rand k

/-- The record built for day offset `i` and region index `j` in the generator
loop.  The loop body performs five `random.uniform` calls per record, in the
order temperature, humidity, wind_speed, air_quality_index, precipitation, so
the record at position `8 * i + j` consumes samples `5 * (8 * i + j)` through
`5 * (8 * i + j) + 4` of the stream. -/
def recordAt (today : ℤ) (rand : ℕ → ℚ) (i j : ℕ) : WeatherRecord :=
  let b := 5 * (8 * i + j)
  { date := today - i
    region := regions.getD j ""
    temperature := pyRoundTo 1 (uniform rand b 15 35)
    humidity := (pyRound (uniform rand (b + 1) 30 90) : ℚ)
    wind_speed := pyRoundTo 1 (uniform rand (b + 2) 0 30)
    air_quality_index := (pyRound (uniform rand (b + 3) 20 150) : ℚ)
    precipitation := pyRoundTo 2 (uniform rand (b + 4) 0 100) }

/-- The body of `generate_sample_data`: for `i in range(30)`, for each of the
8 regions, append one record for day `today - i`. -/
def generate_sample_data (today : ℤ) (rand : ℕ → ℚ) : List WeatherRecord :=
  (List.range 30).flatMap fun i =>
    (List.range 8).map fun j => recordAt today rand i j

/-- The `@st.cache_data` wrapper on `generate_sample_data`.  Modelled from the
spec: `st.cache_data` is Streamlit library code, not part of `src/`; per the
spec, the first call computes and stores the result and later calls in the
same session return the stored value.  The pair is (returned value, cache
after the call); `today`/`rand` are the current time and random stream at the
moment of the call. -/
def cache_data_call (cache : Option (List WeatherRecord)) (today : ℤ)
    (rand : ℕ → ℚ) : List WeatherRecord × Option (List WeatherRecord) :=
  match cache with
  | some v => (v, some v)
  | none => (generate_sample_data today rand, some (generate_sample_data today rand))

/-- The sentinel entry prepended to the region selectbox. -/
def allRegions : String := "All Regions"

/-- The filtering in `load_weather_data`: first the date comprehension
`[d for d in data if d['date'] == selected_date]`, then, when a named region
is selected, the region comprehension. -/
def filterData (data : List WeatherRecord) (selectedDate : ℤ)
    (selectedRegion : String) : List WeatherRecord :=
  let filtered := data.filter fun d => d.date = selectedDate
  if selectedRegion ≠ allRegions then
    filtered.filter fun d => d.region = selectedRegion
  else
    filtered

/-- The observable outcome of `load_weather_data`: the returned DataFrame (as
its row list) plus any `st.warning` / `st.error` messages emitted. -/
structure RenderOutput where
  df : List WeatherRecord
  warnings : List String
  errors : List String
deriving DecidableEq, Repr

/-- The `try` body of `load_weather_data`: generate, then filter.  It is
wrapped in `Except` so that a hypothetical Python exception anywhere in the
body is `Except.error msg`; the pure embedded body itself always succeeds. -/
def load_weather_data_core (today selectedDate : ℤ) (selectedRegion : String)
    (rand : ℕ → ℚ) : Except String (List WeatherRecord) :=
  Except.ok (filterData (generate_sample_data today rand) selectedDate selectedRegion)

/-- The warning message of the empty-filter path. -/
def noDataMsg : String := "No data found for the selected filters."

/-- The single error boundary of `load_weather_data`: an empty filter result
emits `st.warning` and returns an empty DataFrame; an exception is caught by
the `except` clause, emits `st.error`, and returns an empty DataFrame. -/
def handleLoad (body : Except String (List WeatherRecord)) : RenderOutput :=
  match body with
  | Except.ok fd =>
      if fd.isEmpty then ⟨[], [noDataMsg], []⟩ else ⟨fd, [], []⟩
  | Except.error e => ⟨[], [], ["An error occurred: " ++ e]⟩

/-- `load_weather_data` as run by the dashboard. -/
def load_weather_data (today selectedDate : ℤ) (selectedRegion : String)
    (rand : ℕ → ℚ) : RenderOutput :=
  handleLoad (load_weather_data_core today selectedDate selectedRegion rand)

/-- The earliest date the `st.date_input` widget allows:
`min_value = datetime.now() - timedelta(days=30)`. -/
def dateInputMin (today : ℤ) : ℤ := today - 30

/-- The latest date the `st.date_input` widget allows: `max_value = datetime.now()`. -/
def dateInputMax (today : ℤ) : ℤ := today

/-- Arithmetic mean of a list of rationals: model of `pandas.Series.mean`. -/
def seriesMean (l : List ℚ) : ℚ := l.sum / l.length

/-- The four summary-card aggregates of `create_dashboard`, computed only when
the filtered DataFrame is non-empty (the `if not weather_df.empty` guard), in
card order: temperature, humidity, wind_speed, air_quality_index. -/
def dashboardMetrics (df : List WeatherRecord) : Option (ℚ × ℚ × ℚ × ℚ) :=
  if df.isEmpty then none
  else some (seriesMean (df.map WeatherRecord.temperature),
             seriesMean (df.map WeatherRecord.humidity),
             seriesMean (df.map WeatherRecord.wind_speed),
             seriesMean (df.map WeatherRecord.air_quality_index))

/-! ### Basic lemmas about the rounding and sampling primitives -/

theorem le_pyRound {z : ℤ} {x : ℚ} (h : (z : ℚ) ≤ x) : z ≤ pyRound x := by
  unfold pyRound
  have hz : z ≤ ⌊x⌋ := Int.le_floor.mpr h
  split
  · exact hz
  · split
    · omega
    · split
      · exact hz
      · omega

theorem pyRound_le {z : ℤ} {x : ℚ} (h : x ≤ (z : ℚ)) : pyRound x ≤ z := by
  unfold pyRound
  have hz : ⌊x⌋ ≤ z := by
    have := Int.floor_le_floor h
    simpa using this
  have hlt : (⌊x⌋ : ℚ) < x → ⌊x⌋ + 1 ≤ z := by
    intro hx
    have : (⌊x⌋ : ℚ) < (z : ℚ) := lt_of_lt_of_le hx h
    have : ⌊x⌋ < z := by exact_mod_cast this
    omega
  split
  · exact hz
  · rename_i h1
    split
    · exact hlt (by linarith [Int.floor_le x])
    · rename_i h2
      have hhalf : x - ⌊x⌋ = 1/2 := le_antisymm (not_lt.mp h2) (not_lt.mp h1)
      split
      · exact hz
      · exact hlt (by linarith)

theorem pyRound_intCast (z : ℤ) : pyRound (z : ℚ) = z :=
  le_antisymm (pyRound_le le_rfl) (le_pyRound le_rfl)

theorem le_pyRoundTo {z : ℤ} {x : ℚ} {n : ℕ} (h : (z : ℚ) / 10 ^ n ≤ x) :
    (z : ℚ) / 10 ^ n ≤ pyRoundTo n x := by
  have hpow : (0 : ℚ) < 10 ^ n := by positivity
  have h1 : (z : ℚ) ≤ x * 10 ^ n := by
    rw [div_le_iff₀ hpow] at h
    exact h
  have h2 : z ≤ pyRound (x * 10 ^ n) := le_pyRound h1
  unfold pyRoundTo
  rw [div_le_div_iff_of_pos_right hpow]
  exact_mod_cast h2

theorem pyRoundTo_le {z : ℤ} {x : ℚ} {n : ℕ} (h : x ≤ (z : ℚ) / 10 ^ n) :
    pyRoundTo n x ≤ (z : ℚ) / 10 ^ n := by
  have hpow : (0 : ℚ) < 10 ^ n := by positivity
  have h1 : x * 10 ^ n ≤ (z : ℚ) := by
    rw [le_div_iff₀ hpow] at h
    exact h
  have h2 : pyRound (x * 10 ^ n) ≤ z := pyRound_le h1
  unfold pyRoundTo
  rw [div_le_div_iff_of_pos_right hpow]
  exact_mod_cast h2

/-- Rounding at `n` decimal digits fixes every value that already has at most
`n` decimal digits. -/
theorem pyRoundTo_eq_self {x : ℚ} {n : ℕ} {z : ℤ} (h : x * 10 ^ n = (z : ℚ)) :
    pyRoundTo n x = x := by
  have hpow : (0 : ℚ) ≠ 10 ^ n := by positivity
  unfold pyRoundTo
  rw [h, pyRound_intCast, ← h, mul_div_assoc, div_self hpow.symm, mul_one]

theorem uniform_mem {rand : ℕ → ℚ} {k : ℕ} {a b : ℚ}
    (hr : 0 ≤ rand k ∧ rand k ≤ 1) (hab : a ≤ b) :
    a ≤ uniform rand k a b ∧ uniform rand k a b ≤ b := by
  unfold uniform
  constructor
  · nlinarith [hr.1, hr.2]
  · nlinarith [hr.1, hr.2]

/-! ### Shape of the generated collection -/

theorem mem_generate_iff {today : ℤ} {rand : ℕ → ℚ} {rec : WeatherRecord} :
    rec ∈ generate_sample_data today rand ↔
      ∃ i < 30, ∃ j < 8, rec = recordAt today rand i j := by
  simp only [generate_sample_data, List.mem_flatMap, List.mem_map, List.mem_range]
  constructor
  · rintro ⟨i, hi, j, hj, rfl⟩
    exact ⟨i, hi, j, hj, rfl⟩
  · rintro ⟨i, hi, j, hj, rfl⟩
    exact ⟨i, hi, j, hj, rfl⟩

theorem recordAt_mem {today : ℤ} {rand : ℕ → ℚ} {i j : ℕ}
    (hi : i < 30) (hj : j < 8) :
    recordAt today rand i j ∈ generate_sample_data today rand :=
  mem_generate_iff.mpr ⟨i, hi, j, hj, rfl⟩

theorem pyRoundTo_scaled (n : ℕ) (x : ℚ) :
    pyRoundTo n x * 10 ^ n = (pyRound (x * 10 ^ n) : ℚ) := by
  unfold pyRoundTo
  field_simp

theorem pyRoundTo_mem {x a b : ℚ} {n : ℕ} {y z : ℤ}
    (hy : (y : ℚ) = a * 10 ^ n) (hz : (z : ℚ) = b * 10 ^ n)
    (hax : a ≤ x) (hxb : x ≤ b) : a ≤ pyRoundTo n x ∧ pyRoundTo n x ≤ b := by
  have hpow : (0 : ℚ) < 10 ^ n := by positivity
  have ha : (y : ℚ) / 10 ^ n = a := by rw [hy]; field_simp
  have hb : (z : ℚ) / 10 ^ n = b := by rw [hz]; field_simp
  constructor
  · rw [← ha]
    exact le_pyRoundTo (by rw [ha]; exact hax)
  · rw [← hb]
    exact pyRoundTo_le (by rw [hb]; exact hxb)

theorem pyRound_mem_cast {x : ℚ} {a b : ℤ} (hax : (a : ℚ) ≤ x) (hxb : x ≤ (b : ℚ)) :
    (a : ℚ) ≤ (pyRound x : ℚ) ∧ (pyRound x : ℚ) ≤ (b : ℚ) :=
  ⟨by exact_mod_cast le_pyRound hax, by exact_mod_cast pyRound_le hxb⟩

/-- Field ranges and decimal granularity of every record the generator loop
builds, given unit-interval random samples. -/
theorem recordAt_field_props (today : ℤ) (rand : ℕ → ℚ)
    (hrand : ∀ k, 0 ≤ rand k ∧ rand k ≤ 1) (i j : ℕ) :
    (15 ≤ (recordAt today rand i j).temperature ∧
      (recordAt today rand i j).temperature ≤ 35) ∧
    (∃ z : ℤ, (recordAt today rand i j).temperature * 10 = (z : ℚ)) ∧
    (∃ z : ℤ, (recordAt today rand i j).humidity = (z : ℚ)) ∧
    (30 ≤ (recordAt today rand i j).humidity ∧
      (recordAt today rand i j).humidity ≤ 90) ∧
    (0 ≤ (recordAt today rand i j).wind_speed ∧
      (recordAt today rand i j).wind_speed ≤ 30) ∧
    (∃ z : ℤ, (recordAt today rand i j).wind_speed * 10 = (z : ℚ)) ∧
    (∃ z : ℤ, (recordAt today rand i j).air_quality_index = (z : ℚ)) ∧
    (20 ≤ (recordAt today rand i j).air_quality_index ∧
      (recordAt today rand i j).air_quality_index ≤ 150) ∧
    (0 ≤ (recordAt today rand i j).precipitation ∧
      (recordAt today rand i j).precipitation ≤ 100) ∧
    (∃ z : ℤ, (recordAt today rand i j).precipitation * 100 = (z : ℚ)) := by
  unfold recordAt
  simp only
  refine ⟨?_, ?_, ?_, ?_, ?_, ?_, ?_, ?_, ?_, ?_⟩
  · have hu := uniform_mem (k := 5 * (8 * i + j)) (hrand _) (by norm_num : (15 : ℚ) ≤ 35)
    exact pyRoundTo_mem (y := 150) (z := 350) (by norm_num) (by norm_num) hu.1 hu.2
  · exact ⟨pyRound (uniform rand (5 * (8 * i + j)) 15 35 * 10 ^ 1),
      by simpa using pyRoundTo_scaled 1 _⟩
  · exact ⟨_, rfl⟩
  · have hu := uniform_mem (k := 5 * (8 * i + j) + 1) (hrand _) (by norm_num : (30 : ℚ) ≤ 90)
    exact pyRound_mem_cast (a := 30) (b := 90) (by exact_mod_cast hu.1)
      (by exact_mod_cast hu.2)
  · have hu := uniform_mem (k := 5 * (8 * i + j) + 2) (hrand _) (by norm_num : (0 : ℚ) ≤ 30)
    exact pyRoundTo_mem (y := 0) (z := 300) (by norm_num) (by norm_num) hu.1 hu.2
  · exact ⟨pyRound (uniform rand (5 * (8 * i + j) + 2) 0 30 * 10 ^ 1),
      by simpa using pyRoundTo_scaled 1 _⟩
  · exact ⟨_, rfl⟩
  · have hu := uniform_mem (k := 5 * (8 * i + j) + 3) (hrand _) (by norm_num : (20 : ℚ) ≤ 150)
    exact pyRound_mem_cast (a := 20) (b := 150) (by exact_mod_cast hu.1)
      (by exact_mod_cast hu.2)
  · have hu := uniform_mem (k := 5 * (8 * i + j) + 4) (hrand _) (by norm_num : (0 : ℚ) ≤ 100)
    exact pyRoundTo_mem (y := 0) (z := 10000) (by norm_num) (by norm_num) hu.1 hu.2
  · exact ⟨pyRound (uniform rand (5 * (8 * i + j) + 4) 0 100 * 10 ^ 2),
      by simpa using pyRoundTo_scaled 2 _⟩

/-- Every region of the fixed list occurs at an index below 8. -/
theorem region_index_exists {r : String} (hr : r ∈ regions) :
    ∃ j < 8, regions.getD j "" = r := by
  simp only [regions, List.mem_cons, List.not_mem_nil, or_false] at hr
  rcases hr with rfl | rfl | rfl | rfl | rfl | rfl | rfl | rfl
  · exact ⟨0, by norm_num, rfl⟩
  · exact ⟨1, by norm_num, rfl⟩
  · exact ⟨2, by norm_num, rfl⟩
  · exact ⟨3, by norm_num, rfl⟩
  · exact ⟨4, by norm_num, rfl⟩
  · exact ⟨5, by norm_num, rfl⟩
  · exact ⟨6, by norm_num, rfl⟩
  · exact ⟨7, by norm_num, rfl⟩

theorem recordAt_date (today : ℤ) (rand : ℕ → ℚ) (i j : ℕ) :
    (recordAt today rand i j).date = today - i := rfl

theorem recordAt_region (today : ℤ) (rand : ℕ → ℚ) (i j : ℕ) :
    (recordAt today rand i j).region = regions.getD j "" := rfl

/-- C2: the generator, given no input, always returns exactly 240 records —
one per region per day, covering the 30 trailing days (`today - i` for
`i < 30`) times the 8 fixed regions. -/
theorem generate_sample_data_count (today : ℤ) (rand : ℕ → ℚ) :
    (generate_sample_data today rand).length = 240 ∧
    regions.length = 8 ∧
    ∀ i : ℕ, i < 30 → ∀ r ∈ regions, ∃ rec ∈ generate_sample_data today rand,
      rec.date = today - (i : ℤ) ∧ rec.region = r := by
  refine ⟨rfl, rfl, ?_⟩
  intro i hi r hr
  obtain ⟨j, hj, hjr⟩ := region_index_exists hr
  exact ⟨recordAt today rand i j, recordAt_mem hi hj, rfl, hjr⟩

/-- C3: every field of every generated record lies in its documented range,
with humidity and air_quality_index integral; the rounding applied after
uniform sampling preserves the bounds. -/
theorem generated_fields_in_range (today : ℤ) (rand : ℕ → ℚ)
    (hrand : ∀ k, 0 ≤ rand k ∧ rand k ≤ 1)
    (rec : WeatherRecord) (hrec : rec ∈ generate_sample_data today rand) :
    (15 ≤ rec.temperature ∧ rec.temperature ≤ 35) ∧
    (∃ z : ℤ, rec.humidity = (z : ℚ)) ∧
    (30 ≤ rec.humidity ∧ rec.humidity ≤ 90) ∧
    (0 ≤ rec.wind_speed ∧ rec.wind_speed ≤ 30) ∧
    (∃ z : ℤ, rec.air_quality_index = (z : ℚ)) ∧
    (20 ≤ rec.air_quality_index ∧ rec.air_quality_index ≤ 150) ∧
    (0 ≤ rec.precipitation ∧ rec.precipitation ≤ 100) := by
  obtain ⟨i, hi, j, hj, rfl⟩ := mem_generate_iff.mp hrec
  obtain ⟨h1, _, h3, h4, h5, _, h7, h8, h9, _⟩ :=
    recordAt_field_props today rand hrand i j
  exact ⟨h1, h3, h4, h5, h7, h8, h9⟩

/-- Concrete instantiation of `generated_fields_in_range` at `today = 0`,
`rand k = 1`, on the first generated record. -/
theorem generated_fields_in_range_witness :
    (15 ≤ (recordAt 0 (fun _ => 1) 0 0).temperature ∧
      (recordAt 0 (fun _ => 1) 0 0).temperature ≤ 35) ∧
    (∃ z : ℤ, (recordAt 0 (fun _ => 1) 0 0).humidity = (z : ℚ)) ∧
    (30 ≤ (recordAt 0 (fun _ => 1) 0 0).humidity ∧
      (recordAt 0 (fun _ => 1) 0 0).humidity ≤ 90) ∧
    (0 ≤ (recordAt 0 (fun _ => 1) 0 0).wind_speed ∧
      (recordAt 0 (fun _ => 1) 0 0).wind_speed ≤ 30) ∧
    (∃ z : ℤ, (recordAt 0 (fun _ => 1) 0 0).air_quality_index = (z : ℚ)) ∧
    (20 ≤ (recordAt 0 (fun _ => 1) 0 0).air_quality_index ∧
      (recordAt 0 (fun _ => 1) 0 0).air_quality_index ≤ 150) ∧
    (0 ≤ (recordAt 0 (fun _ => 1) 0 0).precipitation ∧
      (recordAt 0 (fun _ => 1) 0 0).precipitation ≤ 100) :=
  generated_fields_in_range 0 (fun _ => 1) (fun _ => by norm_num) _
    (recordAt_mem (by norm_num) (by norm_num))

theorem allRegions_not_mem : allRegions ∉ regions := by decide

theorem regions_filter_count :
    ∀ r ∈ regions,
      ((List.range 8).filter fun j => regions.getD j "" = r).length = 1 := by
  decide

theorem sum_indicator_range {i n : ℕ} (hi : i < n) :
    ((List.range n).map fun j => if j = i then 1 else 0).sum = 1 := by
  induction n with
  | zero => omega
  | succ n ih =>
    rw [List.range_succ, List.map_append, List.sum_append]
    by_cases h : i = n
    · subst h
      have hz : ((List.range i).map fun j => if j = i then 1 else 0).sum = 0 := by
        apply List.sum_eq_zero
        intro x hx
        simp only [List.mem_map, List.mem_range] at hx
        obtain ⟨j, hj, rfl⟩ := hx
        simp [Nat.ne_of_lt hj]
      simp [hz]
    · have hi' : i < n := by omega
      have h2 : ¬n = i := fun hc => h hc.symm
      simp [ih hi', h2]

/-- On the generated collection, filtering by one of the 30 generated dates
and then by one of the 8 regions leaves exactly one record. -/
theorem filter_gen_singleton (today : ℤ) (rand : ℕ → ℚ) (i : ℕ) (hi : i < 30)
    (r : String) (hr : r ∈ regions) :
    (((generate_sample_data today rand).filter
        fun d => d.date = today - (i : ℤ)).filter
      fun d => d.region = r).length = 1 := by
  rw [List.filter_filter]
  unfold generate_sample_data
  rw [List.filter_flatMap, List.length_flatMap]
  have hinner : ∀ i' ∈ List.range 30,
      ((((List.range 8).map fun j => recordAt today rand i' j).filter
        fun d => decide (d.region = r) && decide (d.date = today - (i : ℤ))).length)
      = if i' = i then 1 else 0 := by
    intro i' _
    rw [List.filter_map, List.length_map]
    by_cases h : i' = i
    · subst h
      have hcongr : ∀ j ∈ List.range 8,
          ((fun d => decide (d.region = r) && decide (d.date = today - (i' : ℤ))) ∘
            fun j => recordAt today rand i' j) j
          = decide (regions.getD j "" = r) := by
        intro j _
        simp [Function.comp, recordAt_region, recordAt_date]
      rw [List.filter_congr hcongr, if_pos rfl]
      exact regions_filter_count r hr
    · have hdate : ∀ j : ℕ, ¬((recordAt today rand i' j).date = today - (i : ℤ)) := by
        intro j
        rw [recordAt_date, sub_right_inj]
        exact_mod_cast fun hc => h (by exact_mod_cast hc)
      have : ((List.range 8).filter
          ((fun d => decide (d.region = r) && decide (d.date = today - (i : ℤ))) ∘
            fun j => recordAt today rand i' j)) = [] := by
        rw [List.filter_eq_nil_iff]
        intro j _
        simp [Function.comp, hdate j]
      rw [this]
      simp [h]
  rw [List.map_congr_left ?_]
  · exact sum_indicator_range hi
  · intro i' hi'
    exact hinner i' hi'

/-- C1: the filter returns exactly the records whose date equals the target
date, intersected with the selected region when one is named; "All Regions"
keeps every record of the date, and a named region on the generated
collection leaves that region's single record for that date. -/
theorem filterData_spec (data : List WeatherRecord) (sel : ℤ) (region : String) :
    (region = allRegions →
      filterData data sel region = data.filter fun d => d.date = sel) ∧
    (region ≠ allRegions →
      filterData data sel region =
        data.filter fun d => d.date = sel ∧ d.region = region) ∧
    (∀ today : ℤ, ∀ rand : ℕ → ℚ, ∀ i : ℕ, i < 30 → region ∈ regions →
      data = generate_sample_data today rand →
      (filterData data (today - (i : ℤ)) region).length = 1) := by
  refine ⟨?_, ?_, ?_⟩
  · intro h
    simp [filterData, h]
  · intro h
    rw [filterData, if_pos h, List.filter_filter]
    apply List.filter_congr
    intro d _
    rw [Bool.decide_and]
    exact Bool.and_comm _ _
  · intro today rand i hi hreg hdata
    subst hdata
    have hne : region ≠ allRegions := fun hc => allRegions_not_mem (hc ▸ hreg)
    rw [filterData, if_pos hne]
    exact filter_gen_singleton today rand i hi region hreg

/-- Concrete instantiation of `filterData_spec`: the named-region branch on an
empty collection, and the singleton count on the generated collection at
`today = 0`, `rand k = 1`, date offset 0, region "Tokyo". -/
theorem filterData_spec_witness :
    (filterData [] 0 "Tokyo" = List.filter (fun d => d.date = 0 ∧ d.region = "Tokyo") []) ∧
    (filterData (generate_sample_data 0 fun _ => 1) (0 - (0 : ℤ)) "Tokyo").length = 1 :=
  ⟨(filterData_spec [] 0 "Tokyo").2.1 (by decide),
   (filterData_spec (generate_sample_data 0 fun _ => 1) (0 - (0 : ℤ)) "Tokyo").2.2
     0 (fun _ => 1) 0 (by norm_num) (by decide) rfl⟩

theorem regions_getD_inj :
    ∀ j1 < 8, ∀ j2 < 8, regions.getD j1 "" = regions.getD j2 "" → j1 = j2 := by
  decide

/-- The (date, region) keys of the generated collection, in generation order. -/
theorem generate_keys_eq (today : ℤ) (rand : ℕ → ℚ) :
    (generate_sample_data today rand).map (fun rec => (rec.date, rec.region)) =
      (List.range 30).flatMap fun i =>
        (List.range 8).map fun j => (today - (i : ℤ), regions.getD j "") := by
  unfold generate_sample_data
  rw [List.map_flatMap]
  simp only [List.map_map]
  rfl

/-- C9: (date, region) is a unique key of the generated collection — the key
list has no duplicate, so per-date, per-region lookups are single-valued. -/
theorem generate_keys_nodup (today : ℤ) (rand : ℕ → ℚ) :
    ((generate_sample_data today rand).map fun rec => (rec.date, rec.region)).Nodup ∧
    ∀ r1 ∈ generate_sample_data today rand, ∀ r2 ∈ generate_sample_data today rand,
      r1.date = r2.date → r1.region = r2.region → r1 = r2 := by
  have hnd : ((generate_sample_data today rand).map
      fun rec => (rec.date, rec.region)).Nodup := by
    rw [generate_keys_eq, List.nodup_flatMap]
    constructor
    · intro i _
      apply List.Nodup.map_on
      · intro j1 hj1 j2 hj2 heq
        simp only [List.mem_range] at hj1 hj2
        exact regions_getD_inj j1 hj1 j2 hj2 (congrArg Prod.snd heq)
      · exact List.nodup_range 8
    · apply (List.pairwise_lt_range 30).imp
      intro a b hab
      intro x hxa hxb
      simp only [List.mem_map, List.mem_range] at hxa hxb
      obtain ⟨j1, _, rfl⟩ := hxa
      obtain ⟨j2, _, h2⟩ := hxb
      have hdates : today - (b : ℤ) = today - (a : ℤ) := congrArg Prod.fst h2
      have : (b : ℤ) = (a : ℤ) := by omega
      omega
  refine ⟨hnd, ?_⟩
  intro r1 h1 r2 h2 hdate hregion
  exact List.inj_on_of_nodup_map hnd h1 h2 (by rw [hdate, hregion])

/-- Concrete instantiation of `generate_sample_data_count` at `today = 0`,
`rand k = 1`: 240 records, with a record for day offset 0 and "New York". -/
theorem generate_sample_data_count_witness :
    (generate_sample_data 0 fun _ => 1).length = 240 ∧
    ∃ rec ∈ generate_sample_data 0 fun _ => 1,
      rec.date = 0 - ((0 : ℕ) : ℤ) ∧ rec.region = "New York" :=
  ⟨(generate_sample_data_count 0 fun _ => 1).1,
   (generate_sample_data_count 0 fun _ => 1).2.2 0 (by norm_num) "New York" (by decide)⟩

/-- Concrete instantiation of `generate_keys_nodup` at `today = 0`, `rand k = 1`. -/
theorem generate_keys_nodup_witness :
    ((generate_sample_data 0 fun _ => 1).map fun rec => (rec.date, rec.region)).Nodup ∧
    recordAt 0 (fun _ => 1) 0 0 = recordAt 0 (fun _ => 1) 0 0 :=
  ⟨(generate_keys_nodup 0 fun _ => 1).1,
   (generate_keys_nodup 0 fun _ => 1).2 _ (recordAt_mem (by norm_num) (by norm_num)) _
     (recordAt_mem (by norm_num) (by norm_num)) rfl rfl⟩

/-- An empty filter result makes `load_weather_data` take the warning path. -/
theorem load_eq_warn_of_empty (today sel : ℤ) (region : String) (rand : ℕ → ℚ)
    (h : filterData (generate_sample_data today rand) sel region = []) :
    load_weather_data today sel region rand = ⟨[], [noDataMsg], []⟩ := by
  unfold load_weather_data load_weather_data_core handleLoad
  simp [h]

/-- C5: when no generated record matches the filter, loading returns an empty
DataFrame, emits exactly the warning message, and emits no error — the
observable outcome is a total value, never an exception. -/
theorem load_empty_warning (today sel : ℤ) (region : String) (rand : ℕ → ℚ)
    (h : filterData (generate_sample_data today rand) sel region = []) :
    load_weather_data today sel region rand = ⟨[], [noDataMsg], []⟩ :=
  load_eq_warn_of_empty today sel region rand h

/-- Concrete instantiation of `load_empty_warning`: at `today = 0` the date 1
is generated for no record, so loading warns and returns no rows. -/
theorem load_empty_warning_witness :
    load_weather_data 0 1 allRegions (fun _ => 1) = ⟨[], [noDataMsg], []⟩ :=
  load_empty_warning 0 1 allRegions (fun _ => 1) (by decide)

/-- C7: the single error boundary — an exception anywhere in the `try` body
is caught, surfaced as the inline error message, and execution continues with
an empty result set; `load_weather_data` is exactly the boundary applied to
the body. -/
theorem load_error_boundary :
    (∀ e : String,
      handleLoad (Except.error e) = ⟨[], [], ["An error occurred: " ++ e]⟩) ∧
    ∀ (today sel : ℤ) (region : String) (rand : ℕ → ℚ),
      load_weather_data today sel region rand =
        handleLoad (load_weather_data_core today sel region rand) :=
  ⟨fun _ => rfl, fun _ _ _ _ => rfl⟩

/-- C8: within one session, a second invocation of the cached generator
returns the same record collection as the first, even if the clock and the
random source have changed in between. -/
theorem cache_data_repeat (t1 t2 : ℤ) (r1 r2 : ℕ → ℚ) :
    (cache_data_call (cache_data_call none t1 r1).2 t2 r2).1 =
      (cache_data_call none t1 r1).1 := rfl

/-- C10: the date picker reaches down to `today - 30`, but the generator only
produces dates `today - i` for `i < 30`; selecting the earliest selectable
date therefore always filters to empty and takes the warning path. -/
theorem earliest_selectable_empty (today : ℤ) (rand : ℕ → ℚ) (region : String) :
    (∀ rec ∈ generate_sample_data today rand, rec.date ≠ dateInputMin today) ∧
    filterData (generate_sample_data today rand) (dateInputMin today) region = [] ∧
    load_weather_data today (dateInputMin today) region rand = ⟨[], [noDataMsg], []⟩ := by
  have hno : ∀ rec ∈ generate_sample_data today rand, rec.date ≠ dateInputMin today := by
    intro rec hrec
    obtain ⟨i, hi, j, hj, rfl⟩ := mem_generate_iff.mp hrec
    rw [recordAt_date]
    unfold dateInputMin
    omega
  have hdate : (generate_sample_data today rand).filter
      (fun d => d.date = dateInputMin today) = [] := by
    rw [List.filter_eq_nil_iff]
    intro a ha
    simp [hno a ha]
  have hempty : filterData (generate_sample_data today rand)
      (dateInputMin today) region = [] := by
    unfold filterData
    rw [hdate]
    split
    · rfl
    · rfl
  exact ⟨hno, hempty, load_eq_warn_of_empty today (dateInputMin today) region rand hempty⟩

/-- Concrete instantiation of `earliest_selectable_empty` at `today = 0`,
`rand k = 1`, region "All Regions", checked on the first generated record. -/
theorem earliest_selectable_empty_witness :
    (recordAt 0 (fun _ => 1) 0 0).date ≠ dateInputMin 0 ∧
    load_weather_data 0 (dateInputMin 0) allRegions (fun _ => 1) = ⟨[], [noDataMsg], []⟩ :=
  ⟨(earliest_selectable_empty 0 (fun _ => 1) allRegions).1 _
      (recordAt_mem (by norm_num) (by norm_num)),
   (earliest_selectable_empty 0 (fun _ => 1) allRegions).2.2⟩

/-- C4: for a non-empty filtered collection the four summary-card aggregates
are exactly the arithmetic means of the respective fields, and a single-record
collection yields that record's field values exactly. -/
theorem dashboard_means (df : List WeatherRecord) (hne : df ≠ []) :
    dashboardMetrics df =
      some ((df.map WeatherRecord.temperature).sum / (df.map WeatherRecord.temperature).length,
            (df.map WeatherRecord.humidity).sum / (df.map WeatherRecord.humidity).length,
            (df.map WeatherRecord.wind_speed).sum / (df.map WeatherRecord.wind_speed).length,
            (df.map WeatherRecord.air_quality_index).sum /
              (df.map WeatherRecord.air_quality_index).length) ∧
    ∀ rec, df = [rec] →
      dashboardMetrics df =
        some (rec.temperature, rec.humidity, rec.wind_speed, rec.air_quality_index) := by
  constructor
  · unfold dashboardMetrics seriesMean
    rw [if_neg (by simpa [List.isEmpty_iff] using hne)]
  · rintro rec rfl
    unfold dashboardMetrics seriesMean
    norm_num

/-- Concrete instantiation of `dashboard_means` on the single-record
collection holding the first generated record. -/
theorem dashboard_means_witness :
    dashboardMetrics [recordAt 0 (fun _ => 1) 0 0] =
      some ((recordAt 0 (fun _ => 1) 0 0).temperature,
            (recordAt 0 (fun _ => 1) 0 0).humidity,
            (recordAt 0 (fun _ => 1) 0 0).wind_speed,
            (recordAt 0 (fun _ => 1) 0 0).air_quality_index) :=
  (dashboard_means [recordAt 0 (fun _ => 1) 0 0] (List.cons_ne_nil _ _)).2 _ rfl

/-! ### CSV export (`weather_df.to_csv(index=False)`) and its parse

The CSV text is modelled as a `List Char`.  Rendering follows pandas/Python:
one comma-separated header line, then one line per record in column order
date, region, temperature, humidity, wind_speed, air_quality_index,
precipitation, each line terminated by a newline, no index column.  Numbers
are rendered the way `str` renders the generated values: integers as digit
runs, rounded floats as shortest decimal with at least one fractional digit.
The date cell stands for the `%Y-%m-%d` string through its day ordinal (see
the header comment).  `csvParse` is the model of reading the CSV back. -/

def digitChar (n : ℕ) : Char := Char.ofNat (48 + n)

def charVal (c : Char) : ℕ := c.toNat - 48

def isDigitChar (c : Char) : Bool := 48 ≤ c.toNat && c.toNat ≤ 57

def renderNat (n : ℕ) : List Char :=
  if n < 10 then [digitChar n]
  else renderNat (n / 10) ++ [digitChar (n % 10)]
termination_by n
decreasing_by
  exact Nat.div_lt_self (by omega) (by norm_num)

def renderInt (z : ℤ) : List Char :=
  if z < 0 then '-' :: renderNat z.natAbs else renderNat z.toNat

/-- Decimal rendering of a non-negative number of hundredths, Python style:
at least one and at most two fractional digits, no trailing zero in the
second place. -/
def renderHundredths (m : ℕ) : List Char :=
  if m % 100 = 0 then renderNat (m / 100) ++ ['.', '0']
  else if m % 10 = 0 then renderNat (m / 100) ++ ['.', digitChar (m % 100 / 10)]
  else renderNat (m / 100) ++ ['.', digitChar (m % 100 / 10), digitChar (m % 10)]

/-- Rendering of a generated float field (an exact multiple of 1/100). -/
def renderPyFloat (q : ℚ) : List Char := renderHundredths (q * 100).num.toNat

/-- Rendering of a generated int field (`round` with no digits gives `int`). -/
def renderPyInt (q : ℚ) : List Char := renderInt q.num

def parseNat (s : List Char) : Option ℕ :=
  if s ≠ [] ∧ s.all isDigitChar = true then
    some (s.foldl (fun a c => 10 * a + charVal c) 0)
  else none

def parseInt (s : List Char) : Option ℤ :=
  match s with
  | [] => none
  | c :: rest =>
      if c = '-' then (parseNat rest).map fun n => -(n : ℤ)
      else (parseNat (c :: rest)).map fun n => (n : ℤ)

def splitSep (c : Char) : List Char → List (List Char)
  | [] => [[]]
  | x :: xs =>
      match splitSep c xs with
      | [] => [[]]
      | y :: ys => if x = c then [] :: y :: ys else (x :: y) :: ys

def joinSep (c : Char) : List (List Char) → List Char
  | [] => []
  | [x] => x
  | x :: xs => x ++ c :: joinSep c xs

def parsePyFloat (s : List Char) : Option ℚ :=
  match splitSep '.' s with
  | [a, b] =>
      match parseNat a, parseNat b with
      | some w, some f => some ((w : ℚ) + (f : ℚ) / 10 ^ b.length)
      | _, _ => none
  | _ => none

def recordToCells (rec : WeatherRecord) : List (List Char) :=
  [renderInt rec.date, rec.region.data, renderPyFloat rec.temperature,
   renderPyInt rec.humidity, renderPyFloat rec.wind_speed,
   renderPyInt rec.air_quality_index, renderPyFloat rec.precipitation]

def headerCells : List (List Char) :=
  ["date".data, "region".data, "temperature".data, "humidity".data,
   "wind_speed".data, "air_quality_index".data, "precipitation".data]

def to_csv (df : List WeatherRecord) : List Char :=
  ((headerCells :: df.map recordToCells).map
    fun row => joinSep ',' row ++ ['\n']).flatten

def parseRow (cells : List (List Char)) : Option WeatherRecord :=
  match cells with
  | [c1, c2, c3, c4, c5, c6, c7] => do
      let d ← parseInt c1
      let t ← parsePyFloat c3
      let h ← parseInt c4
      let w ← parsePyFloat c5
      let a ← parseInt c6
      let p ← parsePyFloat c7
      some ⟨d, String.mk c2, t, (h : ℚ), w, (a : ℚ), p⟩
  | _ => none

def csvParse (s : List Char) : Option (List WeatherRecord) :=
  if (splitSep '\n' s).getLast? = some [] then
    match (splitSep '\n' s).dropLast with
    | [] => none
    | header :: rowls =>
        if header = joinSep ',' headerCells then
          rowls.mapM fun rl => parseRow (splitSep ',' rl)
        else none
  else none

/-- A record whose cells survive the CSV round trip: region free of
separators, float fields non-negative exact hundredths, int fields integral. -/
def csvExportable (rec : WeatherRecord) : Prop :=
  (',' ∉ rec.region.data ∧ '\n' ∉ rec.region.data) ∧
  (∃ z : ℤ, 0 ≤ z ∧ rec.temperature = (z : ℚ) / 100) ∧
  (∃ z : ℤ, rec.humidity = (z : ℚ)) ∧
  (∃ z : ℤ, 0 ≤ z ∧ rec.wind_speed = (z : ℚ) / 100) ∧
  (∃ z : ℤ, rec.air_quality_index = (z : ℚ)) ∧
  (∃ z : ℤ, 0 ≤ z ∧ rec.precipitation = (z : ℚ) / 100)

/-! ### Round-trip lemmas for the CSV cell renderers -/

theorem charVal_digitChar {d : ℕ} (h : d < 10) : charVal (digitChar d) = d := by
  interval_cases d <;> rfl

theorem isDigitChar_digitChar {d : ℕ} (h : d < 10) :
    isDigitChar (digitChar d) = true := by
  interval_cases d <;> rfl

theorem digitChar_ne {d : ℕ} (h : d < 10) :
    ',' ≠ digitChar d ∧ '\n' ≠ digitChar d ∧ '-' ≠ digitChar d := by
  have hd := isDigitChar_digitChar h
  refine ⟨?_, ?_, ?_⟩ <;> (rintro heq; rw [← heq] at hd; exact absurd hd (by decide))

theorem not_mem_of_all_digit {s : List Char} (h : s.all isDigitChar = true) :
    ',' ∉ s ∧ '\n' ∉ s ∧ '.' ∉ s ∧ '-' ∉ s := by
  rw [List.all_eq_true] at h
  refine ⟨fun hc => ?_, fun hc => ?_, fun hc => ?_, fun hc => ?_⟩ <;>
    exact absurd (h _ hc) (by decide)

theorem renderNat_digits (n : ℕ) :
    renderNat n ≠ [] ∧ (renderNat n).all isDigitChar = true := by
  induction n using Nat.strong_induction_on with
  | _ n ih =>
    rw [renderNat]
    split
    · rename_i h
      exact ⟨by simp, by simp [isDigitChar_digitChar h]⟩
    · rename_i h
      have ih' := ih (n / 10) (Nat.div_lt_self (by omega) (by norm_num))
      refine ⟨by simp, ?_⟩
      rw [List.all_append]
      simp [ih'.2, isDigitChar_digitChar (Nat.mod_lt n (by norm_num))]

theorem renderNat_foldl (n : ℕ) :
    (renderNat n).foldl (fun a c => 10 * a + charVal c) 0 = n := by
  induction n using Nat.strong_induction_on with
  | _ n ih =>
    rw [renderNat]
    split
    · rename_i h
      simp [charVal_digitChar h]
    · rename_i h
      rw [List.foldl_append, ih (n / 10) (Nat.div_lt_self (by omega) (by norm_num))]
      simp only [List.foldl_cons, List.foldl_nil,
        charVal_digitChar (Nat.mod_lt n (by norm_num))]
      omega

theorem parseNat_renderNat (n : ℕ) : parseNat (renderNat n) = some n := by
  unfold parseNat
  rw [if_pos ⟨(renderNat_digits n).1, (renderNat_digits n).2⟩, renderNat_foldl]

theorem renderNat_head_digit (n : ℕ) :
    ∃ c t, renderNat n = c :: t ∧ isDigitChar c = true := by
  obtain ⟨hne, hall⟩ := renderNat_digits n
  cases h : renderNat n with
  | nil => exact absurd h hne
  | cons c t =>
    rw [h, List.all_cons, Bool.and_eq_true] at hall
    exact ⟨c, t, rfl, hall.1⟩

theorem parseInt_renderInt (z : ℤ) : parseInt (renderInt z) = some z := by
  unfold renderInt
  split
  · rename_i h
    have h1 : parseInt ('-' :: renderNat z.natAbs) =
        (parseNat (renderNat z.natAbs)).map fun n => -(n : ℤ) := by
      simp [parseInt]
    rw [h1, parseNat_renderNat]
    show some (-(z.natAbs : ℤ)) = some z
    simp only [Option.some.injEq]
    omega
  · rename_i h
    obtain ⟨c, t, heq, hd⟩ := renderNat_head_digit z.toNat
    rw [heq]
    have hne : ¬(c = '-') := fun hc => by
      rw [hc] at hd
      exact absurd hd (by decide)
    have h1 : parseInt (c :: t) = (parseNat (c :: t)).map fun n => (n : ℤ) := by
      simp [parseInt, hne]
    rw [h1, ← heq, parseNat_renderNat]
    show some ((z.toNat : ℤ)) = some z
    simp only [Option.some.injEq]
    omega

/-! ### Separator split/join round trips -/

theorem splitSep_ne_nil (c : Char) (s : List Char) : splitSep c s ≠ [] := by
  induction s with
  | nil => simp [splitSep]
  | cons x xs ih =>
    cases h : splitSep c xs with
    | nil => simp [splitSep, h]
    | cons y ys =>
      simp only [splitSep, h]
      split <;> simp

theorem splitSep_nosep {c : Char} {x : List Char} (h : c ∉ x) :
    splitSep c x = [x] := by
  induction x with
  | nil => rfl
  | cons a as ih =>
    have ha : ¬(a = c) := fun hc => h (hc ▸ List.mem_cons_self a as)
    have has : c ∉ as := fun hc => h (List.mem_cons_of_mem _ hc)
    simp [splitSep, ih has, ha]

theorem splitSep_append {c : Char} {x rest : List Char} (h : c ∉ x) :
    splitSep c (x ++ c :: rest) = x :: splitSep c rest := by
  induction x with
  | nil =>
    cases hr : splitSep c rest with
    | nil => exact absurd hr (splitSep_ne_nil c rest)
    | cons y ys => simp [splitSep, hr]
  | cons a as ih =>
    have ha : ¬(a = c) := fun hc => h (hc ▸ List.mem_cons_self a as)
    have has : c ∉ as := fun hc => h (List.mem_cons_of_mem _ hc)
    have ih' := ih has
    simp [splitSep, ih', ha]

theorem splitSep_flatten {c : Char} (rows : List (List Char))
    (h : ∀ r ∈ rows, c ∉ r) :
    splitSep c ((rows.map fun r => r ++ [c]).flatten) = rows ++ [[]] := by
  induction rows with
  | nil => rfl
  | cons r rs ih =>
    rw [List.map_cons, List.flatten_cons]
    have hsh : (r ++ [c]) ++ ((rs.map fun r => r ++ [c]).flatten) =
        r ++ c :: ((rs.map fun r => r ++ [c]).flatten) := by
      simp
    rw [hsh, splitSep_append (h r (List.mem_cons_self r rs)),
      ih fun a ha => h a (List.mem_cons_of_mem _ ha)]
    rfl

theorem splitSep_joinSep {c : Char} (cells : List (List Char)) (hne : cells ≠ [])
    (h : ∀ x ∈ cells, c ∉ x) : splitSep c (joinSep c cells) = cells := by
  induction cells with
  | nil => exact absurd rfl hne
  | cons x xs ih =>
    cases xs with
    | nil => exact splitSep_nosep (h x (List.mem_cons_self x []))
    | cons y ys =>
      rw [show joinSep c (x :: y :: ys) = x ++ c :: joinSep c (y :: ys) from rfl,
        splitSep_append (h x (List.mem_cons_self _ _)),
        ih (by simp) fun a ha => h a (List.mem_cons_of_mem _ ha)]

theorem mem_joinSep {c x : Char} {cells : List (List Char)}
    (hx : x ∈ joinSep c cells) : x = c ∨ ∃ cell ∈ cells, x ∈ cell := by
  induction cells with
  | nil => simp [joinSep] at hx
  | cons a as ih =>
    cases as with
    | nil =>
      rw [show joinSep c [a] = a from rfl] at hx
      exact Or.inr ⟨a, List.mem_cons_self _ _, hx⟩
    | cons b bs =>
      rw [show joinSep c (a :: b :: bs) = a ++ c :: joinSep c (b :: bs) from rfl] at hx
      rcases List.mem_append.mp hx with h1 | h2
      · exact Or.inr ⟨a, List.mem_cons_self _ _, h1⟩
      · rcases List.mem_cons.mp h2 with h3 | h4
        · exact Or.inl h3
        · rcases ih h4 with h5 | ⟨cell, hc1, hc2⟩
          · exact Or.inl h5
          · exact Or.inr ⟨cell, List.mem_cons_of_mem _ hc1, hc2⟩

theorem not_mem_joinSep {c x : Char} {cells : List (List Char)}
    (hxc : x ≠ c) (h : ∀ cell ∈ cells, x ∉ cell) : x ∉ joinSep c cells := by
  intro hx
  rcases mem_joinSep hx with h1 | ⟨cell, hc1, hc2⟩
  · exact hxc h1
  · exact h cell hc1 hc2

/-! ### Float cell round trip -/

theorem parseNat_single {d : ℕ} (hd : d < 10) : parseNat [digitChar d] = some d := by
  unfold parseNat
  rw [if_pos ⟨by simp, by simp [isDigitChar_digitChar hd]⟩]
  simp [charVal_digitChar hd]

theorem parseNat_pair {a b : ℕ} (ha : a < 10) (hb : b < 10) :
    parseNat [digitChar a, digitChar b] = some (10 * a + b) := by
  unfold parseNat
  rw [if_pos ⟨by simp, by simp [isDigitChar_digitChar ha, isDigitChar_digitChar hb]⟩]
  simp [charVal_digitChar ha, charVal_digitChar hb]

theorem parsePyFloat_cells {a b : List Char} (ha : '.' ∉ a) (hb : '.' ∉ b) :
    parsePyFloat (a ++ '.' :: b) =
      match parseNat a, parseNat b with
      | some w, some f => some ((w : ℚ) + (f : ℚ) / 10 ^ b.length)
      | _, _ => none := by
  unfold parsePyFloat
  rw [splitSep_append ha, splitSep_nosep hb]

theorem parsePyFloat_renderHundredths (m : ℕ) :
    parsePyFloat (renderHundredths m) = some ((m : ℚ) / 100) := by
  have hdot : '.' ∉ renderNat (m / 100) :=
    (not_mem_of_all_digit (renderNat_digits (m / 100)).2).2.2.1
  have hw := parseNat_renderNat (m / 100)
  unfold renderHundredths
  split
  · rename_i h0
    rw [show renderNat (m / 100) ++ ['.', '0'] =
        renderNat (m / 100) ++ '.' :: ['0'] from rfl,
      parsePyFloat_cells hdot (by decide), hw,
      show parseNat ['0'] = some 0 from by decide]
    show some _ = some _
    simp only [Option.some.injEq]
    have key : (100 : ℚ) * ((m / 100 : ℕ) : ℚ) = (m : ℚ) := by
      exact_mod_cast (by omega : 100 * (m / 100) = m)
    push_cast
    field_simp
    linarith [key]
  · split
    · rename_i h0 h10
      have hd : m % 100 / 10 < 10 := by omega
      rw [show renderNat (m / 100) ++ ['.', digitChar (m % 100 / 10)] =
          renderNat (m / 100) ++ '.' :: [digitChar (m % 100 / 10)] from rfl,
        parsePyFloat_cells hdot (by
          intro hc
          rcases List.mem_cons.mp hc with h | h
          · have hdig := isDigitChar_digitChar hd
            rw [← h] at hdig
            exact absurd hdig (by decide)
          · simp at h),
        hw, parseNat_single hd]
      show some _ = some _
      simp only [Option.some.injEq]
      have key : (100 : ℚ) * ((m / 100 : ℕ) : ℚ) + 10 * ((m % 100 / 10 : ℕ) : ℚ)
          = (m : ℚ) := by
        exact_mod_cast (by omega : 100 * (m / 100) + 10 * (m % 100 / 10) = m)
      field_simp
      linarith [key]
    · rename_i h0 h10
      have hd1 : m % 100 / 10 < 10 := by omega
      have hd2 : m % 10 < 10 := by omega
      rw [show renderNat (m / 100) ++ ['.', digitChar (m % 100 / 10), digitChar (m % 10)] =
          renderNat (m / 100) ++ '.' :: [digitChar (m % 100 / 10), digitChar (m % 10)] from rfl,
        parsePyFloat_cells hdot (by
          intro hc
          rcases List.mem_cons.mp hc with h | h
          · have hdig := isDigitChar_digitChar hd1
            rw [← h] at hdig
            exact absurd hdig (by decide)
          · rcases List.mem_cons.mp h with h2 | h2
            · have hdig := isDigitChar_digitChar hd2
              rw [← h2] at hdig
              exact absurd hdig (by decide)
            · simp at h2),
        hw, parseNat_pair hd1 hd2]
      show some _ = some _
      simp only [Option.some.injEq]
      have key : (100 : ℚ) * ((m / 100 : ℕ) : ℚ) + 10 * ((m % 100 / 10 : ℕ) : ℚ)
          + ((m % 10 : ℕ) : ℚ) = (m : ℚ) := by
        exact_mod_cast (by omega : 100 * (m / 100) + 10 * (m % 100 / 10) + m % 10 = m)
      push_cast
      field_simp
      linarith [key]

theorem parsePyFloat_renderPyFloat {q : ℚ} {z : ℤ} (hz : 0 ≤ z)
    (hq : q = (z : ℚ) / 100) : parsePyFloat (renderPyFloat q) = some q := by
  subst hq
  unfold renderPyFloat
  have h100 : ((z : ℚ) / 100) * 100 = (z : ℚ) := by field_simp
  rw [h100, Rat.num_intCast, parsePyFloat_renderHundredths]
  congr 1
  rw [show ((z.toNat : ℕ) : ℚ) = (z : ℚ) by exact_mod_cast Int.toNat_of_nonneg hz]

theorem parseInt_renderPyInt {q : ℚ} {z : ℤ} (hq : q = (z : ℚ)) :
    parseInt (renderPyInt q) = some z := by
  subst hq
  unfold renderPyInt
  rw [Rat.num_intCast, parseInt_renderInt]

/-! ### Absence of separators in rendered cells and lines -/

theorem renderNat_no_sep (n : ℕ) :
    ',' ∉ renderNat n ∧ '\n' ∉ renderNat n :=
  ⟨(not_mem_of_all_digit (renderNat_digits n).2).1,
   (not_mem_of_all_digit (renderNat_digits n).2).2.1⟩

theorem renderInt_no_sep (z : ℤ) : ',' ∉ renderInt z ∧ '\n' ∉ renderInt z := by
  unfold renderInt
  split
  · constructor <;>
      · intro hc
        rcases List.mem_cons.mp hc with h | h
        · exact absurd h.symm (by decide)
        · exact absurd h (by
            first
            | exact (renderNat_no_sep _).1
            | exact (renderNat_no_sep _).2)
  · exact ⟨(renderNat_no_sep _).1, (renderNat_no_sep _).2⟩

theorem renderHundredths_no_sep (m : ℕ) :
    ',' ∉ renderHundredths m ∧ '\n' ∉ renderHundredths m := by
  have h1 := renderNat_no_sep (m / 100)
  have hd1 : m % 100 / 10 < 10 := by omega
  have hd2 : m % 10 < 10 := by omega
  have c1 := (digitChar_ne hd1).1
  have c2 := (digitChar_ne hd1).2.1
  have c3 := (digitChar_ne hd2).1
  have c4 := (digitChar_ne hd2).2.1
  unfold renderHundredths
  constructor <;> split <;> (try split) <;>
    simp +decide [List.mem_append, List.mem_cons, h1.1, h1.2, c1, c2, c3, c4]

theorem renderPyFloat_no_sep (q : ℚ) :
    ',' ∉ renderPyFloat q ∧ '\n' ∉ renderPyFloat q := renderHundredths_no_sep _

theorem renderPyInt_no_sep (q : ℚ) :
    ',' ∉ renderPyInt q ∧ '\n' ∉ renderPyInt q := renderInt_no_sep _

theorem recordToCells_no_sep {rec : WeatherRecord}
    (hr : ',' ∉ rec.region.data ∧ '\n' ∉ rec.region.data) :
    ∀ cell ∈ recordToCells rec, ',' ∉ cell ∧ '\n' ∉ cell := by
  intro cell hc
  unfold recordToCells at hc
  simp only [List.mem_cons, List.not_mem_nil, or_false] at hc
  rcases hc with rfl | rfl | rfl | rfl | rfl | rfl | rfl
  · exact renderInt_no_sep _
  · exact hr
  · exact renderPyFloat_no_sep _
  · exact renderPyInt_no_sep _
  · exact renderPyFloat_no_sep _
  · exact renderPyInt_no_sep _
  · exact renderPyFloat_no_sep _

theorem parseRow_recordToCells {rec : WeatherRecord} (h : csvExportable rec) :
    parseRow (recordToCells rec) = some rec := by
  obtain ⟨hreg, ⟨zt, hzt0, hzt⟩, ⟨zh, hzh⟩, ⟨zw, hzw0, hzw⟩, ⟨za, hza⟩,
    ⟨zp, hzp0, hzp⟩⟩ := h
  obtain ⟨d, r, t, hu, w, a, p⟩ := rec
  dsimp only at hzt hzh hzw hza hzp
  subst hzh hza
  obtain ⟨rd⟩ := r
  unfold recordToCells parseRow
  dsimp only
  rw [parseInt_renderInt d, parsePyFloat_renderPyFloat hzt0 hzt,
    parseInt_renderPyInt rfl, parsePyFloat_renderPyFloat hzw0 hzw,
    parseInt_renderPyInt rfl, parsePyFloat_renderPyFloat hzp0 hzp]
  rfl

theorem parseRow_line {rec : WeatherRecord} (h : csvExportable rec) :
    parseRow (splitSep ',' (joinSep ',' (recordToCells rec))) = some rec := by
  rw [splitSep_joinSep _ (by simp [recordToCells])
    fun cell hc => ((recordToCells_no_sep h.1) cell hc).1]
  exact parseRow_recordToCells h

theorem mapM_parseRow (df : List WeatherRecord)
    (h : ∀ rec ∈ df, csvExportable rec) :
    (df.map fun rec => joinSep ',' (recordToCells rec)).mapM
      (fun rl => parseRow (splitSep ',' rl)) = some df := by
  induction df with
  | nil => rfl
  | cons rec rest ih =>
    rw [List.map_cons, List.mapM_cons,
      parseRow_line (h rec (List.mem_cons_self _ _)),
      ih fun a ha => h a (List.mem_cons_of_mem _ ha)]
    rfl

/-- Parsing the rendered CSV restores the row list, for any collection of
CSV-exportable records. -/
theorem csvParse_to_csv (df : List WeatherRecord)
    (h : ∀ rec ∈ df, csvExportable rec) :
    csvParse (to_csv df) = some df := by
  have hrows : ∀ row ∈ (headerCells :: df.map recordToCells).map
      (fun cells => joinSep ',' cells), '\n' ∉ row := by
    intro row hrow
    rcases List.mem_map.mp hrow with ⟨cells, hc, rfl⟩
    rcases List.mem_cons.mp hc with rfl | hcm
    · decide
    · rcases List.mem_map.mp hcm with ⟨rec, hrec, rfl⟩
      exact not_mem_joinSep (by decide)
        fun cell hcell => ((recordToCells_no_sep (h rec hrec).1) cell hcell).2
  have hsplit : splitSep '\n' (to_csv df) =
      (joinSep ',' headerCells ::
        ((df.map recordToCells).map fun cells => joinSep ',' cells)) ++ [[]] := by
    unfold to_csv
    rw [show ((headerCells :: df.map recordToCells).map
        fun row => joinSep ',' row ++ ['\n'])
        = (((headerCells :: df.map recordToCells).map
            fun cells => joinSep ',' cells).map fun r => r ++ ['\n']) from by
      rw [List.map_map]
      rfl]
    exact splitSep_flatten _ hrows
  unfold csvParse
  rw [hsplit, if_pos (List.getLast?_concat _), List.dropLast_concat]
  dsimp only
  rw [if_pos rfl, List.map_map]
  exact mapM_parseRow df h

theorem regions_getD_no_sep :
    ∀ j < 8, ',' ∉ (regions.getD j "").data ∧ '\n' ∉ (regions.getD j "").data := by
  decide

theorem exportable_of_scaled10 {x : ℚ} {z : ℤ} (h0 : 0 ≤ x) (h : x * 10 = (z : ℚ)) :
    ∃ w : ℤ, 0 ≤ w ∧ x = (w : ℚ) / 100 := by
  refine ⟨10 * z, ?_, ?_⟩
  · have hz : (0 : ℚ) ≤ (z : ℚ) := by rw [← h]; linarith
    have hz' : (0 : ℤ) ≤ z := by exact_mod_cast hz
    omega
  · have hx : x = (z : ℚ) / 10 := by
      rw [eq_div_iff (by norm_num : (10 : ℚ) ≠ 0)]
      exact h
    rw [hx]
    push_cast
    ring

theorem exportable_of_scaled100 {x : ℚ} {z : ℤ} (h0 : 0 ≤ x) (h : x * 100 = (z : ℚ)) :
    ∃ w : ℤ, 0 ≤ w ∧ x = (w : ℚ) / 100 := by
  refine ⟨z, ?_, ?_⟩
  · have hz : (0 : ℚ) ≤ (z : ℚ) := by rw [← h]; linarith
    exact_mod_cast hz
  · rw [eq_div_iff (by norm_num : (100 : ℚ) ≠ 0)]
    exact h

theorem generated_csvExportable (today : ℤ) (rand : ℕ → ℚ)
    (hrand : ∀ k, 0 ≤ rand k ∧ rand k ≤ 1)
    {rec : WeatherRecord} (hrec : rec ∈ generate_sample_data today rand) :
    csvExportable rec := by
  obtain ⟨i, hi, j, hj, rfl⟩ := mem_generate_iff.mp hrec
  obtain ⟨⟨ht1, ht2⟩, ⟨zt, hzt⟩, ⟨zh, hzh⟩, hh, ⟨hw1, hw2⟩, ⟨zw, hzw⟩, ⟨za, hza⟩,
    ha, ⟨hp1, hp2⟩, ⟨zp, hzp⟩⟩ := recordAt_field_props today rand hrand i j
  refine ⟨?_, ?_, ⟨zh, hzh⟩, ?_, ⟨za, hza⟩, ?_⟩
  · rw [recordAt_region]
    exact regions_getD_no_sep j hj
  · exact exportable_of_scaled10 (by linarith) hzt
  · exact exportable_of_scaled10 hw1 hzw
  · exact exportable_of_scaled100 hp1 hzp

theorem filterData_subset {data : List WeatherRecord} {sel : ℤ} {region : String}
    {rec : WeatherRecord} (h : rec ∈ filterData data sel region) : rec ∈ data := by
  unfold filterData at h
  split at h
  · exact List.mem_of_mem_filter (List.mem_of_mem_filter h)
  · exact List.mem_of_mem_filter h

/-- C6: parsing the exported CSV (comma-separated, header row included, no
index column) yields exactly the in-memory filtered row list, for every
non-empty filtered collection the dashboard can produce. -/
theorem csv_export_roundtrip (today sel : ℤ) (region : String) (rand : ℕ → ℚ)
    (hrand : ∀ k, 0 ≤ rand k ∧ rand k ≤ 1)
    (df : List WeatherRecord)
    (hdf : df = filterData (generate_sample_data today rand) sel region)
    (hne : df ≠ []) :
    csvParse (to_csv df) = some df := by
  subst hdf
  apply csvParse_to_csv
  intro rec hrec
  exact generated_csvExportable today rand hrand (filterData_subset hrec)

/-- Concrete instantiation of `csv_export_roundtrip` at `today = 0`,
`rand k = 1`, selected date 0, "All Regions" (a non-empty filter result). -/
theorem csv_export_roundtrip_witness :
    csvParse (to_csv (filterData (generate_sample_data 0 fun _ => 1) 0 allRegions)) =
      some (filterData (generate_sample_data 0 fun _ => 1) 0 allRegions) :=
  csv_export_roundtrip 0 0 allRegions (fun _ => 1) (fun _ => by norm_num) _ rfl
    (by decide)
